import Mathlib

/-!
Verification development for the serendipity-deep-research repository.

The repository consists of a Next.js frontend (under `src/frontend/`) and a
FastAPI backend research pipeline (Orchestrator, Planner, Connector Executor,
Entity Resolver, Section Writer) described in `spec.md` and the README.
Frontend functions (`citationsToShow`, `isUnverified`, `handleSubmit`) are
embedded directly from their TypeScript source.  The backend pipeline is
modelled from the spec, as noted in each definition's doc comment.
-/

/-! ## Job status state machine -/

/-- Job status, from the `Job` type in `JobStatus.tsx` and spec §3. -/
inductive Status where
  | PENDING
  | PROCESSING
  | COMPLETED
  | FAILED
deriving DecidableEq, Repr

/-- Modelled from the spec: the Orchestrator's job state machine
`PENDING → PROCESSING → {COMPLETED, FAILED}` (spec §4.1); the backend
Orchestrator code is not part of the provided sources.  `statusStepAllowed a b`
holds exactly when the Orchestrator may move a job from status `a` to
status `b`. -/
def statusStepAllowed : Status → Status → Bool
  | .PENDING, .PROCESSING => true
  | .PROCESSING, .COMPLETED => true
  | .PROCESSING, .FAILED => true
  | _, _ => false

/-- Progress rank of a status along the one-directional state machine. -/
def statusRank : Status → Nat
  | .PENDING => 0
  | .PROCESSING => 1
  | .COMPLETED => 2
  | .FAILED => 2

/-- From `fetchStatus` in `JobStatus.tsx` (lines 172–177): polling stops
(`clearInterval`) exactly when the job status is COMPLETED or FAILED. -/
def pollingStops (s : Status) : Bool :=
  s = Status.COMPLETED || s = Status.FAILED

/-! ## Frontend: ResearchForm submission (`ResearchForm.tsx`) -/

/-- `MAX_CONTEXT_LENGTH` from `ResearchForm.tsx` line 7. -/
def MAX_CONTEXT_LENGTH : Nat := 4000

/-- The POST `/research` payload built by `handleSubmit` in
`ResearchForm.tsx` (lines 99–103). -/
structure ResearchPayload where
  company_name : String
  website : Option String
  context : String
deriving DecidableEq, Repr

/-- Outcome of one invocation of `handleSubmit`: no request sent (empty
prompt), the too-long error path (sets `promptError`, sends nothing), or a
POST `/research` request with the given payload. -/
inductive SubmitAction where
  | noRequest
  | tooLong (errorMessage : String)
  | post (payload : ResearchPayload)
deriving DecidableEq, Repr

/-- JavaScript `a || b` on strings: the empty string is falsy. -/
def jsOrString (a b : String) : String :=
  if a = "" then b else a

/-- JavaScript `a || b || null` where `a` is a string and `b` is a
string-or-null: falsy values (empty string, null) fall through. -/
def jsOrOpt (a : String) (b : Option String) : Option String :=
  if a = "" then
    match b with
    | some s => if s = "" then none else some s
    | none => none
  else some a

/-- `handleSubmit` from `ResearchForm.tsx` (lines 77–118).  The company-name /
website extraction performed by `buildPayloadFromPrompt` (lines 9–57) is
passed in as `extract : String → String × Option String` (returning the
`company_name` and `website` fields it computes); the control flow around it —
the trim, the empty-prompt early return, the `MAX_CONTEXT_LENGTH` guard, the
override merging and the request payload — is embedded directly.  The success
branch's HTTP errors happen after the request is sent and are irrelevant
here. -/
def handleSubmit (extract : String → String × Option String)
    (prompt overrideCompanyName overrideWebsite : String) : SubmitAction :=
  let trimmed := prompt.trim
  if trimmed = "" then .noRequest
  else if trimmed.length > MAX_CONTEXT_LENGTH then
    .tooLong ("Prompt is too long (" ++ toString trimmed.length ++ "/" ++
      toString MAX_CONTEXT_LENGTH ++ " characters). Please shorten it.")
  else
    let auto := extract trimmed
    let company_name := jsOrString overrideCompanyName.trim auto.1
    let websiteValue := jsOrOpt overrideWebsite.trim auto.2
    .post { company_name := company_name, website := websiteValue,
            context := trimmed }

/-- Does the action send a POST `/research` request? -/
def sendsRequest : SubmitAction → Bool
  | .post _ => true
  | _ => false

/-- Is the action the too-long error path? -/
def isTooLongError : SubmitAction → Bool
  | .tooLong _ => true
  | _ => false

/-- The `context` field of the request sent, if any. -/
def sentContext : SubmitAction → Option String
  | .post p => some p.context
  | _ => none

/-! ## Planner (modelled from the spec) -/

/-- Target type, from spec §3 (`target_type ∈ {company, person}`). -/
inductive TargetType where
  | company
  | person
deriving DecidableEq, Repr

/-- The Planner's target input, from spec §3. -/
structure TargetInput where
  company_name : String
  website : Option String
  context : String
  target_type : TargetType
deriving DecidableEq, Repr

/-- A plan step, from spec §3: `{connector_id, operation, parameters,
section_affinity}` plus the fallback tag spec §4.2 requires in the step's
metadata. -/
structure PlanStep where
  connector_id : String
  operation : String
  parameters : List (String × String)
  section_affinity : List String
  is_fallback : Bool
deriving DecidableEq, Repr

/-- The brief sections, in order, from the README's connector matrix
(`src/unnamed/part_000` §2) and the `Brief` keys in `JobStatus.tsx`. -/
def sectionOrder : List String :=
  ["executive_summary", "founding_details", "founders_and_leadership",
   "fundraising", "product", "technology", "competitors", "recent_news"]

/-- Modelled from the spec: the fixed per-section provider table of spec §4.2
("which connectors may serve which section"), following the README's
connector matrix (active connectors column of `src/unnamed/part_000` §2); the
backend planner code is not part of the provided sources.  The same table
serves as the Section Writer's per-section provider whitelist (spec §4.5). -/
def sectionProviders : String → List String
  | "executive_summary" => ["openai", "gleif", "pdl", "exa"]
  | "founding_details" => ["gleif", "exa", "pdl", "openai_agentic"]
  | "founders_and_leadership" => ["pdl"]
  | "fundraising" => ["exa", "pdl"]
  | "product" => ["exa"]
  | "technology" => ["exa"]
  | "competitors" => ["openai"]
  | "recent_news" => ["exa"]
  | _ => []

/-- Structural-registry connectors (legal-entity lookup), from spec §4.2 and
the README's connector overview: GLEIF, Companies House, OpenCorporates. -/
def registryConnectors : List String :=
  ["gleif", "companies_house", "opencorporates"]

/-- Modelled from the spec: the deterministic part of the Planner (spec §4.2)
— for each brief section, each provider of its fixed table that is in
`enabled_capabilities` yields one step serving that section; the backend
planner code is not part of the provided sources. -/
def deterministicSteps (t : TargetInput) (caps : List String) : List PlanStep :=
  sectionOrder.flatMap fun sec =>
    ((sectionProviders sec).filter (fun p => p ∈ caps)).map fun p =>
      { connector_id := p, operation := "fetch",
        parameters := [("company_name", t.company_name)],
        section_affinity := [sec], is_fallback := false }

/-- Modelled from the spec: the single optional agentic fallback step
(LLM-driven web search for founding details, spec §4.2), tagged as a fallback
in its metadata. -/
def agenticFallbackStep (t : TargetInput) : PlanStep :=
  { connector_id := "openai_web", operation := "agentic_search",
    parameters := [("company_name", t.company_name)],
    section_affinity := ["founding_details"], is_fallback := true }

/-- Modelled from the spec: `plan(target_input, enabled_capabilities)`
(spec §4.2) — the deterministic per-section steps, with the agentic fallback
appended when no structural-registry connector is available; the backend
planner code is not part of the provided sources. -/
def plan (t : TargetInput) (caps : List String) : List PlanStep :=
  let steps := deterministicSteps t caps
  if registryConnectors.all (fun r => r ∉ caps) then
    steps ++ [agenticFallbackStep t]
  else steps

/-! ## Connector Executor (modelled from the spec) -/

/-- Connector result status, from spec §3: `ok | error | timeout`. -/
inductive ConnStatus where
  | ok
  | error
  | timeout
deriving DecidableEq, Repr

/-- One normalized record of a connector result: a canonical attribute name
and its candidate value (spec §4.3's common `records[]` representation). -/
structure Record where
  attr : String
  value : String
deriving DecidableEq, Repr

/-- One normalized evidence snippet with provenance, from spec §4.3's
`snippets[]` representation and spec §3's Source fields. -/
structure Snippet where
  url : String
  title : String
  text : String
  published_date : Option String
deriving DecidableEq, Repr

/-- A connector result, from spec §3: `{connector_id, status, records[],
snippets[], fetched_at}`. -/
structure ConnectorResult where
  connector_id : String
  status : ConnStatus
  records : List Record
  snippets : List Snippet
  fetched_at : Nat
deriving DecidableEq, Repr

/-- Modelled from the spec: the Connector Executor (spec §4.3) dispatches
every plan step against its Connector Capability `fetch` and returns one
ConnectorResult per executed step, failed ones included; the backend executor
code is not part of the provided sources.  Concurrency is irrelevant to the
result set, so the fan-out/join is embedded as a map. -/
def executeAll (fetch : PlanStep → ConnectorResult)
    (steps : List PlanStep) : List ConnectorResult :=
  steps.map fetch

/-- Attribute names that establish the target's identity, modelled from the
spec's "identity-establishing data" (spec §4.4, §7) and the README (GLEIF
legal name / registry data, company enrichment). -/
def identityAttrs : List String := ["legal_name", "company_name", "domain"]

/-- Modelled from the spec: a connector result establishes the target's
identity when it succeeded and carries an identity-establishing record
(spec §4.4 output, spec §7 EntityResolutionFailure). -/
def establishesIdentity (r : ConnectorResult) : Bool :=
  r.status = ConnStatus.ok &&
    r.records.any (fun rd => identityAttrs.contains rd.attr)

/-! ## Sources and the Entity Resolver (modelled from the spec) -/

/-- A persisted evidence unit, from spec §3: `{id, url, title, provider,
snippet}` (the optional published date lives on the snippet). -/
structure Source where
  id : Nat
  url : String
  title : String
  provider : String
  snippet : String
deriving DecidableEq, Repr

/-- The Source allocated for the (0-based position, connector result) pair
`p`: its provenance and first evidence snippet, with the 1-based id the
job-scoped allocator assigns. -/
def sourceOfResult (p : Nat × ConnectorResult) : Source :=
  { id := p.1 + 1,
    url := ((p.2.snippets.head?).map Snippet.url).getD "",
    title := ((p.2.snippets.head?).map Snippet.title).getD "",
    provider := p.2.connector_id,
    snippet := ((p.2.snippets.head?).map Snippet.text).getD "" }

/-- Modelled from the spec: the job-scoped Source table (spec §4.4 evidence
attachment) — one Source is allocated per successful connector result, ids
from the job-scoped allocator (position in the result list, 1-based); the
backend resolver code is not part of the provided sources. -/
def sourcesOf (results : List ConnectorResult) : List Source :=
  results.enum.filterMap fun p =>
    if p.2.status = ConnStatus.ok then some (sourceOfResult p) else none

/-- A candidate value for one canonical attribute, with its provider and
provenance (spec §4.4 attribute merge). -/
structure Candidate where
  value : String
  provider : String
  source_id : Nat
  fetched_at : Nat
deriving DecidableEq, Repr

/-- Modelled from the spec: all candidate values for a canonical attribute,
collected from the successful connector results with their provider and
source id (spec §4.4 "collect all candidate values with their provider"). -/
def candidatesFor (attr : String) (results : List ConnectorResult) :
    List Candidate :=
  results.enum.flatMap fun p =>
    if p.2.status = ConnStatus.ok then
      (p.2.records.filter (fun rd => rd.attr = attr)).map fun rd =>
        { value := rd.value, provider := p.2.connector_id,
          source_id := p.1 + 1, fetched_at := p.2.fetched_at }
    else []

/-- Modelled from the spec: the fixed per-attribute provider priority order
(spec §4.4) — structural-registry connectors outrank people-data connectors,
which outrank heuristic web/LLM-derived values.  The modelled table applies
the same order to every attribute, so the attribute argument is unused but
kept to mirror the per-attribute table shape. -/
def providerPriority (_attr provider : String) : Nat :=
  if registryConnectors.contains provider then 3
  else if provider = "pdl" || provider = "pdl_company" || provider = "apollo"
    then 2
  else 1

/-- Modelled from the spec: candidate `d` beats the current best `c` when its
provider priority is strictly higher, or equal with a strictly more recent
fetch (spec §4.4: ties resolved by preferring the most recently fetched
record). -/
def preferredOver (attr : String) (d c : Candidate) : Bool :=
  providerPriority attr d.provider > providerPriority attr c.provider ||
    (providerPriority attr d.provider = providerPriority attr c.provider &&
      d.fetched_at > c.fetched_at)

/-- Modelled from the spec: the attribute merge (spec §4.4) — select the
candidate from the highest-priority available provider, most recent fetch
breaking ties; the backend resolver code is not part of the provided
sources. -/
def mergeAttribute (attr : String) : List Candidate → Option Candidate
  | [] => none
  | c :: cs =>
    some (cs.foldl (fun best d => if preferredOver attr d best then d else best) c)

/-- A canonical attribute value, from spec §3: `{value, source_id,
provider_priority}`. -/
structure AttrValue where
  value : String
  source_id : Nat
  provider_priority : Nat
deriving DecidableEq, Repr

/-- The canonical entity node of the knowledge graph (spec §3). -/
structure CanonicalEntity where
  attrs : List (String × AttrValue)
deriving DecidableEq, Repr

/-- The canonical attributes the Entity Resolver merges (spec §4.4: legal
name, jurisdiction, HQ, founding year). -/
def canonicalAttrs : List String :=
  ["legal_name", "jurisdiction", "hq_location", "founding_year"]

/-- Modelled from the spec: the Entity Resolver's output (spec §4.4) —
exactly one canonical entity, with every attribute selected by the priority
merge and carrying its source id, or the failure outcome (`none`, the spec's
`FAILED: unresolved`) when no connector yielded identity-establishing data;
the backend resolver code is not part of the provided sources. -/
def resolveEntity (results : List ConnectorResult) : Option CanonicalEntity :=
  if results.any establishesIdentity then
    some { attrs := canonicalAttrs.filterMap fun a =>
      (mergeAttribute a (candidatesFor a results)).map fun c =>
        (a, { value := c.value, source_id := c.source_id,
              provider_priority := providerPriority a c.provider }) }
  else none

/-- The canonical company/person nodes the knowledge graph holds for a
resolver outcome: the one resolved entity, or none on failure. -/
def companyNodes : Option CanonicalEntity → List CanonicalEntity
  | some e => [e]
  | none => []

/-! ## Section Writer and guardrails (modelled from the spec) -/

/-- A piece of section markdown as the Section Writer sees it: literal text
or one `[S<id>]` citation token (spec §4.5). -/
inductive Seg where
  | text (s : String)
  | cite (id : Nat)
deriving DecidableEq, Repr

/-- Does the section text contain any citation token? -/
def hasCite (segs : List Seg) : Bool :=
  segs.any fun s =>
    match s with
    | .cite _ => true
    | _ => false

/-- Does the section text contain asserted factual content (some non-empty
text segment)? -/
def hasAssertedText (segs : List Seg) : Bool :=
  segs.any fun s =>
    match s with
    | .text t => t ≠ ""
    | _ => false

/-- A persisted brief section, from spec §3: name, markdown content (as
segments) and the UNVERIFIED flag guardrail step 3 may set. -/
structure BriefSection where
  name : String
  segs : List Seg
  unverified : Bool
deriving DecidableEq, Repr

/-- The Source ids a section may cite: the job's Sources filtered to the
section's fixed provider whitelist (spec §4.5). -/
def allowedIdsFor (sources : List Source) (name : String) : List Nat :=
  (sources.filter fun s => (sectionProviders name).contains s.provider).map
    (fun s => s.id)

/-- Modelled from the spec: the Section Writer's guardrail pipeline on one
returned section (spec §4.5 steps 1 and 3) — step 1 removes every citation
token whose id is not among the section's provided Source ids, and step 3
flags the section UNVERIFIED when asserted factual content remains with no
surviving citation (the section is kept, never rejected); the backend writer
code is not part of the provided sources.  The numeric guardrail (step 2) is
embedded separately as `numericGuardrail` over positioned tokens, per the
spec §9 note that guardrails are independent pure functions over the
returned text. -/
def writeSection (sources : List Source) (name : String) (draft : List Seg) :
    BriefSection :=
  let allowed := allowedIdsFor sources name
  let kept := draft.filter fun seg =>
    match seg with
    | Seg.cite id => allowed.contains id
    | Seg.text _ => true
  { name := name, segs := kept,
    unverified := hasAssertedText kept && !hasCite kept }

/-- The UNVERIFIED marker prefixed to a flagged section's markdown, from the
README ("the section is prefixed with ⚠️ UNVERIFIED") and the banner text in
`JobStatus.tsx` line 493. -/
def UNVERIFIED_MARKER : String := "⚠️ UNVERIFIED — May contain unsupported claims. "

/-- Render one segment back to markdown text. -/
def renderSeg : Seg → String
  | .text s => s
  | .cite id => "[S" ++ toString id ++ "]"

/-- The persisted markdown of a section, as characters: the UNVERIFIED
marker (when flagged) followed by the section's segments. -/
def renderChars (b : BriefSection) : List Char :=
  (if b.unverified then UNVERIFIED_MARKER.data else []) ++
    (String.join (b.segs.map renderSeg)).data

/-- `isUnverified` from `JobStatus.tsx` line 481:
`text.startsWith("⚠️ UNVERIFIED")`, over the markdown's characters. -/
def isUnverified (text : List Char) : Bool :=
  "⚠️ UNVERIFIED".data.isPrefixOf text

/-! ## Numeric guardrail (modelled from the spec) -/

/-- Kind of one token of a numeric-heavy section's text: a standalone
numeric token, a citation token, or an ordinary word. -/
inductive TokKind where
  | numeric
  | citation (id : Nat)
  | word
deriving DecidableEq, Repr

/-- One token of section text with its character position and the index of
its enclosing sentence. -/
structure Token where
  kind : TokKind
  pos : Nat
  sentence : Nat
deriving DecidableEq, Repr

/-- Modelled from the spec: the fixed character window within which a
standalone numeric token must have a citation token (spec §4.5 step 2). -/
def CITATION_WINDOW : Nat := 120

/-- Is the token a citation token? -/
def isCitationTok (t : Token) : Bool :=
  match t.kind with
  | .citation _ => true
  | _ => false

/-- Is the token a standalone numeric token? -/
def isNumericTok (t : Token) : Bool :=
  t.kind = TokKind.numeric

/-- Is there a citation token within the fixed character window of
position `p`? -/
def hasCitationNear (toks : List Token) (p : Nat) : Bool :=
  toks.any fun u => isCitationTok u && Nat.dist u.pos p ≤ CITATION_WINDOW

/-- Modelled from the spec: step 2's stripping pass — every standalone
numeric token with no citation token within the fixed character window is
removed from the text (spec §4.5 step 2). -/
def stripBareNumerals (toks : List Token) : List Token :=
  toks.filter fun t => !(isNumericTok t && !hasCitationNear toks t.pos)

/-- Modelled from the spec: a sentence is empty of asserted fact when no
supported numeric token and no citation token of it survives in `kept`
(spec §8 Scenario C). -/
def sentenceEmptyOfFact (kept : List Token) (sid : Nat) : Bool :=
  !(kept.any fun u => u.sentence = sid && (isNumericTok u || isCitationTok u))

/-- Modelled from the spec: did the stripping pass remove a numeral from
sentence `sid` — a standalone numeric token of that sentence with no
citation within the window (spec §8 Scenario C's "guardrail strips the
numeral")? -/
def sentenceLostNumeral (toks : List Token) (sid : Nat) : Bool :=
  toks.any fun u =>
    u.sentence = sid && isNumericTok u && !hasCitationNear toks u.pos

/-- Modelled from the spec: the numeric guardrail on a numeric-heavy section
(spec §4.5 step 2 with Scenario C's sentence removal: after stripping the
bare numerals, a sentence is removed only when stripping took a numeral from
it and it thereby became empty of asserted fact — sentences the stripping
never touched are kept); the backend guardrail code is not part of the
provided sources. -/
def numericGuardrail (toks : List Token) : List Token :=
  (stripBareNumerals toks).filter fun t =>
    !(sentenceLostNumeral toks t.sentence &&
      sentenceEmptyOfFact (stripBareNumerals toks) t.sentence)

/-! ## Orchestrator (modelled from the spec) -/

/-- Modelled from the spec: one pipeline run of the Orchestrator (spec §4.1)
— Plan → Execute → Resolve → Write — returning the job's terminal status and
the persisted brief sections: FAILED with no brief when the Planner produces
zero steps or the Entity Resolver cannot produce a canonical entity,
COMPLETED with all sections otherwise; the backend orchestrator code is not
part of the provided sources.  `fetch` is the Connector Capability contract
and `drafts` the LLM collaborator's returned markdown per section
(spec §6). -/
def runJob (fetch : PlanStep → ConnectorResult) (drafts : String → List Seg)
    (t : TargetInput) (caps : List String) :
    Status × Option (List BriefSection) :=
  if (plan t caps).isEmpty then (Status.FAILED, none)
  else
    match resolveEntity (executeAll fetch (plan t caps)) with
    | none => (Status.FAILED, none)
    | some _ =>
      (Status.COMPLETED,
        some (sectionOrder.map fun n =>
          writeSection (sourcesOf (executeAll fetch (plan t caps))) n
            (drafts n)))

/-! ## Frontend: citations list (`citationsToShow` in `JobStatus.tsx`) -/

/-- A citation entry as the frontend receives it (`lib/citations`' `Citation`
as used by `JobStatus.tsx`): numeric id with optional title, url and
provider. -/
structure Citation where
  id : Nat
  title : Option String
  url : Option String
  provider : Option String
deriving DecidableEq, Repr

/-- A brief object as `citationsToShow` sees it: its string-valued entries
(in `Object.values` order) and the three optional citation lists. -/
structure Brief where
  sections : List (String × String)
  used_citations : Option (List Citation)
  all_citations : Option (List Citation)
  citations : Option (List Citation)
deriving DecidableEq, Repr

/-- Numeric value of a digit run, as JavaScript's `Number` reads the
captured `\d+` group. -/
def digitsToNat (ds : List Char) : Nat :=
  ds.foldl (fun acc c => acc * 10 + (c.toNat - '0'.toNat)) 0

/-- One attempt of the regex `/\[S(\d+)\](?!\()/` at the head of the text
(from `citationsToShow`, `JobStatus.tsx` line 201): `[S` followed by at
least one digit and `]`, not followed by `(`. -/
def matchCitation : List Char → Option Nat
  | '[' :: 'S' :: rest =>
    let ds := rest.takeWhile Char.isDigit
    if ds.isEmpty then none
    else
      match rest.dropWhile Char.isDigit with
      | ']' :: '(' :: _ => none
      | ']' :: _ => some (digitsToNat ds)
      | _ => none
  | _ => none

/-- All ids matched by the global regex `/\[S(\d+)\](?!\()/g` over the text,
left to right (from `citationsToShow`, `JobStatus.tsx` lines 201–210).
Advancing one character after a successful match is equivalent to the regex
engine's skip past the match, because a citation token contains `[` only as
its first character, so no new match can start inside a match. -/
def scanCitations : List Char → List Nat
  | [] => []
  | c :: cs =>
    match matchCitation (c :: cs) with
    | some id => id :: scanCitations cs
    | none => scanCitations cs

/-- The set of ids referenced by any string field of the brief (the
`referencedIds` set of `citationsToShow`, `JobStatus.tsx` lines 200–210);
`eraseDups` keeps first occurrences, as JavaScript `Set` insertion does. -/
def referencedIds (b : Brief) : List Nat :=
  ((b.sections.map Prod.snd).flatMap (fun v => scanCitations v.data)).eraseDups

/-- The list `citationsToShow` starts from (`JobStatus.tsx` lines 194–197):
`all_citations ?? citations ?? []` when showing all,
`used_citations ?? citations ?? []` otherwise. -/
def baseCitationList (showAll : Bool) (b : Brief) : List Citation :=
  if showAll then b.all_citations.getD (b.citations.getD [])
  else b.used_citations.getD (b.citations.getD [])

/-- The placeholder entry `citationsToShow` appends for a referenced id
missing from the list (`JobStatus.tsx` lines 218–223). -/
def placeholderCitation (id : Nat) : Citation :=
  { id := id, title := some ("Referenced Source (Details unavailable)"),
    url := none, provider := some ("unknown") }

/-- `citationsToShow` from `JobStatus.tsx` lines 192–228 (same code in
`src/unnamed/part_002` lines 214–251): the selected citation list, extended
with a placeholder for every id referenced in the brief's text but missing
from the list. -/
def citationsToShow (showAll : Bool) : Option Brief → List Citation
  | none => []
  | some b =>
    let list := baseCitationList showAll b
    let existingIds := list.map (fun c => c.id)
    let missingIds :=
      (referencedIds b).filter (fun id => !existingIds.contains id)
    if missingIds.isEmpty then list
    else list ++ missingIds.map placeholderCitation

/-! ## Concrete sample run used by the witnesses -/

/-- A concrete target input used by the witnesses: the README's own example
prompt "Stripe (stripe.com)". -/
def sampleTarget : TargetInput :=
  { company_name := "Stripe", website := some ("stripe.com"),
    context := "Stripe (stripe.com)", target_type := TargetType.company }

/-- A capability set with no structural-registry connector enabled. -/
def sampleCapsNoRegistry : List String := ["exa", "pdl", "openai"]

/-- A capability set with the registry connector GLEIF enabled. -/
def sampleCaps : List String := ["gleif", "exa", "pdl", "openai"]

/-- A concrete Connector Capability for the witnesses: GLEIF succeeds with an
identity-establishing record, every other connector times out. -/
def sampleFetch : PlanStep → ConnectorResult := fun s =>
  if s.connector_id = "gleif" then
    { connector_id := "gleif", status := ConnStatus.ok,
      records := [{ attr := "legal_name", value := "Stripe, Inc." }],
      snippets := [{ url := "https://api.gleif.org/stripe",
                     title := "GLEIF record for Stripe",
                     text := "Stripe, Inc., Delaware",
                     published_date := none }],
      fetched_at := 10 }
  else
    { connector_id := s.connector_id, status := ConnStatus.timeout,
      records := [], snippets := [], fetched_at := 0 }

/-- A concrete LLM collaborator for the witnesses: every section drafts one
sentence citing Source 2 (the GLEIF source of the sample run). -/
def sampleDrafts : String → List Seg := fun _ =>
  [Seg.text ("Stripe is incorporated in Delaware. "), Seg.cite 2]

/-- The brief sections the sample run persists. -/
def sampleSections : List BriefSection :=
  ((runJob sampleFetch sampleDrafts sampleTarget sampleCaps).2).getD []

/-- A default section for safe indexing in the witnesses. -/
def defaultSection : BriefSection :=
  { name := "", segs := [], unverified := false }

/-- The sample run's executive summary section (cites Source 2). -/
def sampleCitedSection : BriefSection := sampleSections.getD 0 defaultSection

/-- The sample run's product section (its citation is filtered out, so it is
flagged UNVERIFIED). -/
def sampleUnverifiedSection : BriefSection := sampleSections.getD 4 defaultSection

/-- The sample run's resolved canonical entity. -/
def sampleEntity : CanonicalEntity :=
  (resolveEntity (executeAll sampleFetch (plan sampleTarget sampleCaps))).getD
    { attrs := [] }

/-- A default attribute for safe indexing in the witnesses. -/
def defaultAttr : String × AttrValue :=
  ("", { value := "", source_id := 0, provider_priority := 0 })

/-- The sample entity's first attribute (its merged legal name). -/
def sampleAttrEntry : String × AttrValue := sampleEntity.attrs.getD 0 defaultAttr

/-- A registry candidate for the priority-resolution witness. -/
def registryCandidate : Candidate :=
  { value := "Stripe, Inc.", provider := "gleif", source_id := 1,
    fetched_at := 10 }

/-- A heuristic web candidate for the priority-resolution witness, fetched
more recently than the registry candidate. -/
def heuristicCandidate : Candidate :=
  { value := "Stripe", provider := "exa", source_id := 2, fetched_at := 20 }

/-- The one real citation entry of the sample brief. -/
def sampleCitation : Citation :=
  { id := 3, title := some ("Stripe docs"),
    url := some ("https://stripe.com/docs"), provider := some ("exa") }

/-- A sample brief for the citations witness: the text cites S3 and S5 but
only S3 is in `used_citations`. -/
def sampleBrief : Brief :=
  { sections := [("executive_summary",
      "Stripe builds payment APIs [S3] and was founded in 2010 [S5].")],
    used_citations := some [sampleCitation],
    all_citations := none, citations := none }

/-- A sample numeric token for the numeric-guardrail witness. -/
def sampleNumericTok : Token :=
  { kind := TokKind.numeric, pos := 10, sentence := 0 }

/-- A sample word token in the same sentence as `sampleNumericTok`. -/
def sampleWordTok : Token :=
  { kind := TokKind.word, pos := 0, sentence := 0 }

/-- A sample citation token within the window of `sampleNumericTok`. -/
def sampleCitationTok : Token :=
  { kind := TokKind.citation 3, pos := 20, sentence := 0 }

/-! ## Helper lemmas -/

/-- Every step the deterministic table part produces carries
`is_fallback = false`. -/
theorem deterministicSteps_not_fallback (t : TargetInput) (caps : List String)
    (s : PlanStep) (hs : s ∈ deterministicSteps t caps) :
    s.is_fallback = false := by
  simp only [deterministicSteps, List.mem_flatMap, List.mem_map,
    List.mem_filter] at hs
  obtain ⟨sec, _, p, _, rfl⟩ := hs
  rfl

/-- A list is a Boolean prefix of itself followed by anything. -/
theorem isPrefixOf_self_append (l r : List Char) :
    l.isPrefixOf (l ++ r) = true := by
  induction l with
  | nil => simp [List.isPrefixOf]
  | cons a as ih => simp [List.isPrefixOf, ih]

/-- Extending the larger list on the right preserves `isPrefixOf`. -/
theorem isPrefixOf_extend (p l r : List Char)
    (h : p.isPrefixOf l = true) : p.isPrefixOf (l ++ r) = true := by
  induction p generalizing l with
  | nil => simp [List.isPrefixOf]
  | cons a as ih =>
    cases l with
    | nil => simp [List.isPrefixOf] at h
    | cons b bs =>
      simp only [List.isPrefixOf, Bool.and_eq_true] at h
      simp only [List.cons_append, List.isPrefixOf, Bool.and_eq_true]
      exact ⟨h.1, ih bs h.2⟩

/-- The fold inside `mergeAttribute` returns its accumulator or a list
element. -/
theorem mergeFold_mem (attr : String) (cs : List Candidate) (acc : Candidate) :
    cs.foldl (fun best d => if preferredOver attr d best then d else best) acc
      ∈ acc :: cs := by
  induction cs generalizing acc with
  | nil => simp
  | cons d ds ih =>
    simp only [List.foldl_cons]
    rcases List.mem_cons.mp (ih (if preferredOver attr d acc then d else acc))
      with h | h
    · rw [h]
      by_cases hp : preferredOver attr d acc = true
      · simp [hp]
      · simp [hp]
    · exact List.mem_cons_of_mem _ (List.mem_cons_of_mem _ h)

/-- When `d` does not beat `c`, `c`'s provider priority is at least `d`'s. -/
theorem preferredOver_false_le (attr : String) (d c : Candidate)
    (h : preferredOver attr d c = false) :
    providerPriority attr d.provider ≤ providerPriority attr c.provider := by
  simp only [preferredOver, Bool.or_eq_false_iff, decide_eq_false_iff_not,
    Bool.and_eq_false_iff] at h
  exact Nat.not_lt.mp h.1

/-- The fold inside `mergeAttribute` returns a candidate whose provider
priority is at least that of the accumulator and of every list element. -/
theorem mergeFold_priority (attr : String) (cs : List Candidate)
    (acc : Candidate) :
    (providerPriority attr acc.provider ≤ providerPriority attr
        (cs.foldl (fun best d => if preferredOver attr d best then d else best)
          acc).provider) ∧
    (∀ d ∈ cs, providerPriority attr d.provider ≤ providerPriority attr
        (cs.foldl (fun best d => if preferredOver attr d best then d else best)
          acc).provider) := by
  induction cs generalizing acc with
  | nil => simp
  | cons d ds ih =>
    simp only [List.foldl_cons]
    have hstep : providerPriority attr acc.provider ≤
          providerPriority attr
            (if preferredOver attr d acc then d else acc).provider ∧
        providerPriority attr d.provider ≤
          providerPriority attr
            (if preferredOver attr d acc then d else acc).provider := by
      by_cases hp : preferredOver attr d acc = true
      · simp only [hp, if_true]
        constructor
        · simp only [preferredOver, Bool.or_eq_true, decide_eq_true_eq,
            Bool.and_eq_true] at hp
          rcases hp with h | ⟨h, _⟩
          · exact Nat.le_of_lt h
          · exact Nat.le_of_eq h.symm
        · exact Nat.le_refl _
      · simp only [Bool.not_eq_true] at hp
        simp only [hp, if_false]
        exact ⟨Nat.le_refl _, preferredOver_false_le attr d acc hp⟩
    obtain ⟨ih1, ih2⟩ := ih (if preferredOver attr d acc then d else acc)
    refine ⟨Nat.le_trans hstep.1 ih1, ?_⟩
    intro e he
    rcases List.mem_cons.mp he with rfl | he
    · exact Nat.le_trans hstep.2 ih1
    · exact ih2 e he

/-- Every candidate `candidatesFor` produces has a source id that is in the
job's Source table. -/
theorem candidatesFor_source_id (attr : String)
    (results : List ConnectorResult) (c : Candidate)
    (hc : c ∈ candidatesFor attr results) :
    c.source_id ∈ (sourcesOf results).map (fun s => s.id) := by
  simp only [candidatesFor, List.mem_flatMap] at hc
  obtain ⟨p, hp, hcp⟩ := hc
  by_cases hok : p.2.status = ConnStatus.ok
  · rw [if_pos hok] at hcp
    simp only [List.mem_map, List.mem_filter] at hcp
    obtain ⟨rd, _, rfl⟩ := hcp
    simp only [sourcesOf, List.mem_map]
    exact ⟨sourceOfResult p,
      List.mem_filterMap.mpr ⟨p, hp, by rw [if_pos hok]⟩, rfl⟩
  · rw [if_neg hok] at hcp
    exact absurd hcp (List.not_mem_nil _)

/-- Every id a section is allowed to cite is an id of the job's Source
table. -/
theorem allowedIdsFor_subset (sources : List Source) (n : String) (id : Nat)
    (h : id ∈ allowedIdsFor sources n) :
    id ∈ sources.map (fun s => s.id) := by
  simp only [allowedIdsFor, List.mem_map, List.mem_filter] at h
  obtain ⟨s, ⟨hs, _⟩, rfl⟩ := h
  exact List.mem_map.mpr ⟨s, hs, rfl⟩

/-- When a run persists brief sections, the job is COMPLETED and the
sections are exactly the Writer's output for the job's Source table. -/
theorem runJob_some_sections (fetch : PlanStep → ConnectorResult)
    (drafts : String → List Seg) (t : TargetInput) (caps : List String)
    (sections : List BriefSection)
    (h : (runJob fetch drafts t caps).2 = some sections) :
    (runJob fetch drafts t caps).1 = Status.COMPLETED ∧
    sections = sectionOrder.map (fun n =>
      writeSection (sourcesOf (executeAll fetch (plan t caps))) n
        (drafts n)) := by
  unfold runJob at h ⊢
  by_cases hne : (plan t caps).isEmpty = true
  · rw [if_pos hne] at h
    exact Option.noConfusion h
  · rw [if_neg hne] at h ⊢
    cases hre : resolveEntity (executeAll fetch (plan t caps)) with
    | none =>
      rw [hre] at h
      exact Option.noConfusion h
    | some e =>
      rw [hre] at h
      exact ⟨rfl, (Option.some.inj h).symm⟩

/-! ## Claim theorems -/

/-- Claim C8: the job status only ever moves along
`PENDING → PROCESSING → {COMPLETED, FAILED}`; every allowed transition
strictly increases the status rank (so no transition goes backwards and no
transition can recur along a run), the reverse transition is never allowed,
and COMPLETED/FAILED are terminal: no transition leaves them (and the
frontend `fetchStatus` polling in `JobStatus.tsx` keeps polling exactly while
the status is non-terminal). -/
theorem job_status_state_machine (a b : Status)
    (h : statusStepAllowed a b = true) :
    ((a = Status.PENDING ∧ b = Status.PROCESSING) ∨
      (a = Status.PROCESSING ∧ (b = Status.COMPLETED ∨ b = Status.FAILED))) ∧
    statusRank a < statusRank b ∧
    statusStepAllowed b a = false ∧
    statusStepAllowed Status.COMPLETED b = false ∧
    statusStepAllowed Status.FAILED b = false ∧
    pollingStops a = false := by
  cases a <;> cases b <;>
    simp_all [statusStepAllowed, statusRank, pollingStops]

/-- Witness for C8 at the concrete transition PENDING → PROCESSING. -/
theorem job_status_state_machine_witness :
    ((Status.PENDING = Status.PENDING ∧
        Status.PROCESSING = Status.PROCESSING) ∨
      (Status.PENDING = Status.PROCESSING ∧
        (Status.PROCESSING = Status.COMPLETED ∨
          Status.PROCESSING = Status.FAILED))) ∧
    statusRank Status.PENDING < statusRank Status.PROCESSING ∧
    statusStepAllowed Status.PROCESSING Status.PENDING = false ∧
    statusStepAllowed Status.COMPLETED Status.PROCESSING = false ∧
    statusStepAllowed Status.FAILED Status.PROCESSING = false ∧
    pollingStops Status.PENDING = false :=
  job_status_state_machine Status.PENDING Status.PROCESSING (by decide)

/-- Claim C10: `handleSubmit` sends a POST `/research` request exactly when
the trimmed prompt is non-empty and at most `MAX_CONTEXT_LENGTH` characters
long; it takes the error path (setting an error message, sending nothing)
exactly when the trimmed prompt is non-empty and longer than
`MAX_CONTEXT_LENGTH`; and whenever a request is sent its `context` field is
the trimmed prompt. -/
theorem prompt_length_limit_on_submit
    (extract : String → String × Option String)
    (prompt oc ow : String) :
    (sendsRequest (handleSubmit extract prompt oc ow) = true ↔
      (prompt.trim ≠ "" ∧ prompt.trim.length ≤ MAX_CONTEXT_LENGTH)) ∧
    (isTooLongError (handleSubmit extract prompt oc ow) = true ↔
      (prompt.trim ≠ "" ∧ MAX_CONTEXT_LENGTH < prompt.trim.length)) ∧
    sentContext (handleSubmit extract prompt oc ow) =
      (if prompt.trim ≠ "" ∧ prompt.trim.length ≤ MAX_CONTEXT_LENGTH
        then some prompt.trim else none) := by
  unfold handleSubmit
  by_cases h0 : prompt.trim = ""
  · simp [h0, sendsRequest, isTooLongError, sentContext]
  · by_cases h1 : prompt.trim.length > MAX_CONTEXT_LENGTH
    · rw [if_neg h0, if_pos h1]
      simp [sendsRequest, isTooLongError, sentContext, h0, h1,
        Nat.not_le.mpr h1]
    · rw [if_neg h0, if_neg h1]
      simp [sendsRequest, isTooLongError, sentContext, h0, h1,
        Nat.not_lt.mp h1]

/-- Claim C2: the Planner is deterministic — identical
`(target_input, enabled_capabilities)` pairs yield identical ordered step
lists — and the only step of a plan tagged `is_fallback` is the permitted
agentic fallback step, so fallback steps are distinguishable from
deterministic steps by their metadata. -/
theorem planner_determinism_and_fallback_tag
    (t t' : TargetInput) (caps caps' : List String) (s : PlanStep)
    (ht : t = t') (hc : caps = caps') (hs : s ∈ plan t caps) :
    plan t caps = plan t' caps' ∧
    (s.is_fallback = true ↔ s = agenticFallbackStep t) := by
  subst ht; subst hc
  refine ⟨rfl, ?_⟩
  unfold plan at hs
  split at hs
  · rcases List.mem_append.mp hs with hdet | hfb
    · have hnf := deterministicSteps_not_fallback t caps s hdet
      constructor
      · intro hft; rw [hnf] at hft; exact Bool.noConfusion hft
      · intro heq; subst heq; simp [agenticFallbackStep] at hnf
    · simp only [List.mem_singleton] at hfb
      subst hfb
      simp [agenticFallbackStep]
  · have hnf := deterministicSteps_not_fallback t caps s hs
    constructor
    · intro hft; rw [hnf] at hft; exact Bool.noConfusion hft
    · intro heq; subst heq; simp [agenticFallbackStep] at hnf

/-- Witness for C2: on the Stripe input with capabilities {Exa, PDL, OpenAI}
(no registry), the plan is reproducible and its appended agentic step is the
one tagged as a fallback. -/
theorem planner_determinism_witness :
    plan sampleTarget sampleCapsNoRegistry =
      plan sampleTarget sampleCapsNoRegistry ∧
    ((agenticFallbackStep sampleTarget).is_fallback = true ↔
      agenticFallbackStep sampleTarget = agenticFallbackStep sampleTarget) :=
  planner_determinism_and_fallback_tag sampleTarget sampleTarget
    sampleCapsNoRegistry sampleCapsNoRegistry
    (agenticFallbackStep sampleTarget) rfl rfl (by decide)

/-- Claim C4: the Entity Resolver's attribute merge selects a candidate of
the list whose provider priority is at least that of every other candidate
(the highest-priority available provider under the fixed per-attribute
order). -/
theorem attribute_merge_priority_resolution (attr : String)
    (cands : List Candidate) (c d : Candidate)
    (h : mergeAttribute attr cands = some c) (hd : d ∈ cands) :
    c ∈ cands ∧
    providerPriority attr d.provider ≤ providerPriority attr c.provider := by
  cases cands with
  | nil => exact absurd hd (List.not_mem_nil _)
  | cons c0 cs =>
    simp only [mergeAttribute, Option.some.injEq] at h
    subst h
    refine ⟨mergeFold_mem attr cs c0, ?_⟩
    obtain ⟨hacc, hall⟩ := mergeFold_priority attr cs c0
    rcases List.mem_cons.mp hd with rfl | hd
    · exact hacc
    · exact hall d hd

/-- Witness for C4: conflicting `legal_name` candidates from the registry
connector (GLEIF) and a more recently fetched heuristic connector (Exa) —
the merge selects the registry candidate, so the canonical legal name equals
the registry connector's value. -/
theorem attribute_merge_priority_resolution_witness :
    registryCandidate ∈ [heuristicCandidate, registryCandidate] ∧
    providerPriority ("legal_name") heuristicCandidate.provider ≤
      providerPriority ("legal_name") registryCandidate.provider :=
  attribute_merge_priority_resolution ("legal_name")
    [heuristicCandidate, registryCandidate] registryCandidate
    heuristicCandidate (by decide) (by decide)

/-- Claim C9: every id referenced by an `[S<id>]` token (not followed by
`(`) in a string field of the brief appears in the list `citationsToShow`
returns — either because it is already in the brief's citation list, or
because the placeholder entry (title "Referenced Source (Details
unavailable)", provider "unknown") was appended for it. -/
theorem citations_placeholder_completeness (showAll : Bool) (b : Brief)
    (id : Nat) (h : id ∈ referencedIds b) :
    id ∈ (citationsToShow showAll (some b)).map (fun c => c.id) ∧
    (id ∈ (baseCitationList showAll b).map (fun c => c.id) ∨
      placeholderCitation id ∈ citationsToShow showAll (some b)) := by
  have hdef : citationsToShow showAll (some b) =
      (if ((referencedIds b).filter
          (fun i => !(((baseCitationList showAll b).map
            (fun c => c.id)).contains i))).isEmpty
        then baseCitationList showAll b
        else baseCitationList showAll b ++
          ((referencedIds b).filter
            (fun i => !(((baseCitationList showAll b).map
              (fun c => c.id)).contains i))).map placeholderCitation) := rfl
  rw [hdef]
  by_cases hex :
      ((baseCitationList showAll b).map (fun c => c.id)).contains id = true
  · have hid : id ∈ (baseCitationList showAll b).map (fun c => c.id) :=
      List.mem_of_elem_eq_true hex
    by_cases hmiss : ((referencedIds b).filter
        (fun i => !(((baseCitationList showAll b).map
          (fun c => c.id)).contains i))).isEmpty = true
    · rw [if_pos hmiss]
      exact ⟨hid, Or.inl hid⟩
    · rw [if_neg hmiss]
      refine ⟨?_, Or.inl hid⟩
      rw [List.map_append]
      exact List.mem_append_left _ hid
  · have hmem : id ∈ (referencedIds b).filter
        (fun i => !(((baseCitationList showAll b).map
          (fun c => c.id)).contains i)) := by
      refine List.mem_filter.mpr ⟨h, ?_⟩
      simp only [Bool.not_eq_true'] at hex ⊢
      exact Bool.of_not_eq_true hex
    have hne : ¬((referencedIds b).filter
        (fun i => !(((baseCitationList showAll b).map
          (fun c => c.id)).contains i))).isEmpty = true := by
      intro he
      rw [List.isEmpty_iff] at he
      rw [he] at hmem
      exact absurd hmem (List.not_mem_nil _)
    rw [if_neg hne]
    have hph : placeholderCitation id ∈
        baseCitationList showAll b ++
          ((referencedIds b).filter
            (fun i => !(((baseCitationList showAll b).map
              (fun c => c.id)).contains i))).map placeholderCitation :=
      List.mem_append_right _ (List.mem_map.mpr ⟨id, hmem, rfl⟩)
    refine ⟨?_, Or.inr hph⟩
    exact List.mem_map.mpr ⟨placeholderCitation id, hph, rfl⟩

/-- Witness for C9: in the sample brief the text references S5 which is
missing from `used_citations`; the returned list contains id 5 via the
appended placeholder. -/
theorem citations_placeholder_completeness_witness :
    5 ∈ (citationsToShow false (some sampleBrief)).map (fun c => c.id) ∧
    (5 ∈ (baseCitationList false sampleBrief).map (fun c => c.id) ∨
      placeholderCitation 5 ∈ citationsToShow false (some sampleBrief)) :=
  citations_placeholder_completeness false sampleBrief 5 (by decide)

/-- Every token the numeric guardrail keeps was in the original text. -/
theorem numericGuardrail_subset (toks : List Token) (t : Token)
    (h : t ∈ numericGuardrail toks) : t ∈ toks := by
  unfold numericGuardrail stripBareNumerals at h
  exact (List.mem_filter.mp (List.mem_filter.mp h).1).1

/-- Citation tokens survive both passes of the numeric guardrail: the
stripping pass removes only numerals, and a sentence holding a surviving
citation is not empty of asserted fact. -/
theorem citationTok_survives (toks : List Token) (u : Token)
    (hu : u ∈ toks) (hc : isCitationTok u = true) :
    u ∈ numericGuardrail toks := by
  have hnum : isNumericTok u = false := by
    cases hk : u.kind with
    | numeric => simp [isCitationTok, hk] at hc
    | citation cid => simp [isNumericTok, hk]
    | word => simp [isCitationTok, hk] at hc
  have hu_strip : u ∈ stripBareNumerals toks :=
    List.mem_filter.mpr ⟨hu, by simp [hnum]⟩
  unfold numericGuardrail
  refine List.mem_filter.mpr ⟨hu_strip, ?_⟩
  have hany : (stripBareNumerals toks).any
      (fun v => v.sentence = u.sentence &&
        (isNumericTok v || isCitationTok v)) = true :=
    List.any_eq_true.mpr ⟨u, hu_strip, by simp [hc]⟩
  simp [sentenceEmptyOfFact, hany]

/-- The numeric guardrail preserves which positions have a citation token
within the window: it removes no citation token and adds none. -/
theorem hasCitationNear_guardrail (toks : List Token) (p : Nat) :
    hasCitationNear (numericGuardrail toks) p = hasCitationNear toks p := by
  unfold hasCitationNear
  apply Bool.eq_iff_iff.mpr
  constructor
  · intro h
    obtain ⟨u, hu, hpred⟩ := List.any_eq_true.mp h
    exact List.any_eq_true.mpr ⟨u, numericGuardrail_subset toks u hu, hpred⟩
  · intro h
    obtain ⟨u, hu, hpred⟩ := List.any_eq_true.mp h
    have hc : isCitationTok u = true := by
      simp only [Bool.and_eq_true] at hpred
      exact hpred.1
    exact List.any_eq_true.mpr ⟨u, citationTok_survives toks u hu hc, hpred⟩

/-- Claim C6: for any numeric-heavy section's tokens — with or without any
citation token — a standalone numeric token survives the numeric guardrail
exactly when a citation token lies within the fixed character window of it
(so every numeric token lacking such a citation is stripped), and the
surviving text has a citation within the window of a position exactly when
the original did, so every surviving numeral keeps a citation within the
window in the persisted text. -/
theorem numeric_guardrail_soundness (toks : List Token) (t : Token)
    (ht : t ∈ toks) (hn : t.kind = TokKind.numeric) :
    (t ∈ numericGuardrail toks ↔ hasCitationNear toks t.pos = true) ∧
    hasCitationNear (numericGuardrail toks) t.pos =
      hasCitationNear toks t.pos := by
  have hnum : isNumericTok t = true := by simp [isNumericTok, hn]
  refine ⟨⟨?_, ?_⟩, hasCitationNear_guardrail toks t.pos⟩
  · intro hin
    unfold numericGuardrail at hin
    have hstrip := (List.mem_filter.mp hin).1
    have hpred := (List.mem_filter.mp hstrip).2
    simpa [hnum] using hpred
  · intro hnear
    have hstrip : t ∈ stripBareNumerals toks :=
      List.mem_filter.mpr ⟨ht, by simp [hnum, hnear]⟩
    unfold numericGuardrail
    refine List.mem_filter.mpr ⟨hstrip, ?_⟩
    have hany : (stripBareNumerals toks).any
        (fun v => v.sentence = t.sentence &&
          (isNumericTok v || isCitationTok v)) = true :=
      List.any_eq_true.mpr ⟨t, hstrip, by simp [hnum]⟩
    simp [sentenceEmptyOfFact, hany]

/-- Witness for C6 at the spec's Scenario C: a section whose only tokens are
a word and an uncited numeral — no citation token exists anywhere — so the
numeral is stripped (the survival iff has both sides false). -/
theorem numeric_guardrail_soundness_witness :
    (sampleNumericTok ∈ numericGuardrail [sampleWordTok, sampleNumericTok] ↔
      hasCitationNear [sampleWordTok, sampleNumericTok]
        sampleNumericTok.pos = true) ∧
    hasCitationNear (numericGuardrail [sampleWordTok, sampleNumericTok])
        sampleNumericTok.pos =
      hasCitationNear [sampleWordTok, sampleNumericTok]
        sampleNumericTok.pos :=
  numeric_guardrail_soundness [sampleWordTok, sampleNumericTok]
    sampleNumericTok (by decide) (by decide)

/-- A successful attribute merge returns one of its candidates. -/
theorem mergeAttribute_mem (attr : String) (cands : List Candidate)
    (c : Candidate) (h : mergeAttribute attr cands = some c) : c ∈ cands := by
  cases cands with
  | nil => exact Option.noConfusion h
  | cons c0 cs =>
    simp only [mergeAttribute, Option.some.injEq] at h
    rw [← h]
    exact mergeFold_mem attr cs c0

/-- Claim C3: the Connector Executor returns one ConnectorResult per plan
step, the i-th result being exactly the i-th step's own fetch outcome
(failed steps included, no step's failure affecting any other), and a job in
which one connector times out still reaches COMPLETED provided an
identity-establishing connector succeeded. -/
theorem executor_partial_failure_tolerance
    (fetch : PlanStep → ConnectorResult) (drafts : String → List Seg)
    (t : TargetInput) (caps : List String) (i : Nat)
    (hto : ∃ r ∈ executeAll fetch (plan t caps),
      r.status = ConnStatus.timeout)
    (hid : ∃ r ∈ executeAll fetch (plan t caps),
      establishesIdentity r = true) :
    (executeAll fetch (plan t caps)).length = (plan t caps).length ∧
    (executeAll fetch (plan t caps))[i]? = ((plan t caps)[i]?).map fetch ∧
    (runJob fetch drafts t caps).1 = Status.COMPLETED := by
  refine ⟨by simp [executeAll], by simp [executeAll], ?_⟩
  have hne : (plan t caps).isEmpty = false := by
    obtain ⟨r, hr, _⟩ := hto
    cases hp : plan t caps with
    | nil =>
      rw [hp] at hr
      simp [executeAll] at hr
    | cons a l => rfl
  have hany : (executeAll fetch (plan t caps)).any establishesIdentity
      = true := by
    obtain ⟨r, hr, hrid⟩ := hid
    exact List.any_eq_true.mpr ⟨r, hr, hrid⟩
  unfold runJob
  rw [if_neg (by simp [hne])]
  cases hre : resolveEntity (executeAll fetch (plan t caps)) with
  | none =>
    simp only [resolveEntity] at hre
    rw [if_pos hany] at hre
    exact Option.noConfusion hre
  | some e => rfl

/-- Witness for C3: in the sample run every non-GLEIF connector times out
and GLEIF establishes identity; the result list matches the plan step for
step and the job is COMPLETED. -/
theorem executor_partial_failure_tolerance_witness :
    (executeAll sampleFetch (plan sampleTarget sampleCaps)).length =
      (plan sampleTarget sampleCaps).length ∧
    (executeAll sampleFetch (plan sampleTarget sampleCaps))[0]? =
      ((plan sampleTarget sampleCaps)[0]?).map sampleFetch ∧
    (runJob sampleFetch sampleDrafts sampleTarget sampleCaps).1 =
      Status.COMPLETED :=
  executor_partial_failure_tolerance sampleFetch sampleDrafts sampleTarget
    sampleCaps 0 (by decide) (by decide)

/-- Claim C5: for a COMPLETED job the knowledge graph holds exactly one
canonical entity node (never zero, never more), every attribute of the
entity traces to a Source id of the job's Source table, and the Resolver
returns the failure outcome instead of an entity exactly when no connector
yielded identity-establishing data. -/
theorem single_canonical_entity (fetch : PlanStep → ConnectorResult)
    (drafts : String → List Seg) (t : TargetInput) (caps : List String)
    (e : CanonicalEntity) (a : String) (v : AttrValue)
    (_hC : (runJob fetch drafts t caps).1 = Status.COMPLETED)
    (he : resolveEntity (executeAll fetch (plan t caps)) = some e)
    (hav : (a, v) ∈ e.attrs) :
    (companyNodes (resolveEntity (executeAll fetch (plan t caps)))).length
      = 1 ∧
    v.source_id ∈
      (sourcesOf (executeAll fetch (plan t caps))).map (fun s => s.id) ∧
    (resolveEntity (executeAll fetch (plan t caps)) = none ↔
      (executeAll fetch (plan t caps)).any establishesIdentity = false) := by
  refine ⟨by rw [he]; rfl, ?_, ?_⟩
  · have hattrs : e.attrs = canonicalAttrs.filterMap (fun a' =>
        (mergeAttribute a'
          (candidatesFor a' (executeAll fetch (plan t caps)))).map (fun c =>
            (a', { value := c.value, source_id := c.source_id,
                   provider_priority := providerPriority a' c.provider }))) := by
      simp only [resolveEntity] at he
      by_cases hany : (executeAll fetch (plan t caps)).any establishesIdentity
          = true
      · rw [if_pos hany] at he
        exact (congrArg CanonicalEntity.attrs (Option.some.inj he)).symm
      · rw [if_neg hany] at he
        exact Option.noConfusion he
    rw [hattrs] at hav
    simp only [List.mem_filterMap] at hav
    obtain ⟨a', _, hmap⟩ := hav
    cases hm : mergeAttribute a'
        (candidatesFor a' (executeAll fetch (plan t caps))) with
    | none =>
      rw [hm] at hmap
      exact Option.noConfusion hmap
    | some c =>
      rw [hm] at hmap
      simp only [Option.map_some', Option.some.injEq, Prod.mk.injEq] at hmap
      obtain ⟨rfl, hv⟩ := hmap
      have hcmem := mergeAttribute_mem a' _ c hm
      have hsid := candidatesFor_source_id a' _ c hcmem
      rw [← hv]
      exact hsid
  · simp only [resolveEntity]
    by_cases hany : (executeAll fetch (plan t caps)).any establishesIdentity
        = true
    · rw [if_pos hany]
      simp [hany]
    · rw [if_neg hany]
      simp only [Bool.not_eq_true] at hany
      simp [hany]

/-- Witness for C5: the sample run resolves exactly one entity whose one
attribute (the GLEIF legal name) traces to Source 2. -/
theorem single_canonical_entity_witness :
    (companyNodes (resolveEntity
      (executeAll sampleFetch (plan sampleTarget sampleCaps)))).length = 1 ∧
    sampleAttrEntry.2.source_id ∈
      (sourcesOf (executeAll sampleFetch (plan sampleTarget sampleCaps))).map
        (fun s => s.id) ∧
    (resolveEntity (executeAll sampleFetch (plan sampleTarget sampleCaps))
        = none ↔
      (executeAll sampleFetch (plan sampleTarget sampleCaps)).any
        establishesIdentity = false) :=
  single_canonical_entity sampleFetch sampleDrafts sampleTarget sampleCaps
    sampleEntity sampleAttrEntry.1 sampleAttrEntry.2 (by decide) (by decide)
    (by decide)

/-- Claim C1: citation soundness — every `[S<id>]` citation token occurring
in a persisted brief section of a job cites an id that is present in the
job's Source table. -/
theorem citation_soundness (fetch : PlanStep → ConnectorResult)
    (drafts : String → List Seg) (t : TargetInput) (caps : List String)
    (sections : List BriefSection) (sec : BriefSection) (id : Nat)
    (h : (runJob fetch drafts t caps).2 = some sections)
    (hsec : sec ∈ sections) (hid : Seg.cite id ∈ sec.segs) :
    id ∈ (sourcesOf (executeAll fetch (plan t caps))).map (fun s => s.id) := by
  obtain ⟨-, hsections⟩ := runJob_some_sections fetch drafts t caps sections h
  subst hsections
  simp only [List.mem_map] at hsec
  obtain ⟨n, -, rfl⟩ := hsec
  simp only [writeSection] at hid
  have hpred := (List.mem_filter.mp hid).2
  exact allowedIdsFor_subset _ n id (List.mem_of_elem_eq_true hpred)

/-- Witness for C1: the sample run's executive summary cites Source 2, and 2
is indeed an id of the job's Source table. -/
theorem citation_soundness_witness :
    2 ∈ (sourcesOf (executeAll sampleFetch (plan sampleTarget sampleCaps))).map
      (fun s => s.id) :=
  citation_soundness sampleFetch sampleDrafts sampleTarget sampleCaps
    sampleSections sampleCitedSection 2 (by decide) (by decide) (by decide)

/-- Claim C7: a persisted section whose guardrailed text still asserts
factual content but carries no surviving citation is flagged UNVERIFIED: its
markdown begins with the UNVERIFIED marker (the frontend's `isUnverified`
check accepts it), the section is kept — the run persists all sections — and
the job still reaches COMPLETED. -/
theorem unverified_flagging (fetch : PlanStep → ConnectorResult)
    (drafts : String → List Seg) (t : TargetInput) (caps : List String)
    (sections : List BriefSection) (sec : BriefSection)
    (h : (runJob fetch drafts t caps).2 = some sections)
    (hsec : sec ∈ sections)
    (hat : hasAssertedText sec.segs = true)
    (hnc : hasCite sec.segs = false) :
    sec.unverified = true ∧
    isUnverified (renderChars sec) = true ∧
    sections.length = sectionOrder.length ∧
    (runJob fetch drafts t caps).1 = Status.COMPLETED := by
  obtain ⟨hcomp, hsections⟩ := runJob_some_sections fetch drafts t caps
    sections h
  subst hsections
  simp only [List.mem_map] at hsec
  obtain ⟨n, -, rfl⟩ := hsec
  set sec := writeSection (sourcesOf (executeAll fetch (plan t caps))) n
    (drafts n) with hsecdef
  have hflag : sec.unverified = (hasAssertedText sec.segs && !hasCite sec.segs) :=
    rfl
  have huv : sec.unverified = true := by
    rw [hflag, hat, hnc]
    rfl
  refine ⟨huv, ?_, List.length_map _ _, hcomp⟩
  unfold isUnverified renderChars
  rw [huv]
  simp only [if_true]
  exact isPrefixOf_extend _ _ _ (by decide)

/-- Witness for C7: the sample run's product section loses its citation to
the whitelist filter, is flagged UNVERIFIED, renders with the marker, and
the job is still COMPLETED with all eight sections persisted. -/
theorem unverified_flagging_witness :
    sampleUnverifiedSection.unverified = true ∧
    isUnverified (renderChars sampleUnverifiedSection) = true ∧
    sampleSections.length = sectionOrder.length ∧
    (runJob sampleFetch sampleDrafts sampleTarget sampleCaps).1 =
      Status.COMPLETED :=
  unverified_flagging sampleFetch sampleDrafts sampleTarget sampleCaps
    sampleSections sampleUnverifiedSection (by decide) (by decide) (by decide)
    (by decide)
